import Mathlib

/-!
# Verification of the ninjarouter HTTP router

A shallow embedding of the ninjarouter Go package (files `router.go` and an
earlier revision of the same file, here called `Legacy`), with theorems
settling the specification claims about route registration, lookup,
parameter binding, the connection tracker and graceful shutdown.

Conventions of the embedding:
* Go maps with string keys become association lists (`List (String × _)`);
  map assignment replaces an existing entry in place or appends a new one,
  so keys stay unique and lookup is deterministic.  Where the Go code ranges
  over a map (an unordered iteration), the model iterates in list order and
  theorems about order (in)dependence vary the registration order instead.
* `http.HandlerFunc` values are opaque and represented by `Nat` identifiers.
* `*http.Request` identities (used as the key of the package-level `vars`
  map) are represented by `Nat` identifiers.
* Go `panic` (nil-pointer dereference, slice bounds) is made explicit:
  fallible operations return `Option`, and the dispatcher's outcome type has
  a dedicated crash constructor.
-/

namespace NinjaRouter

/-! ## Association-list model of Go maps -/

/-- Lookup in a Go map modelled as an association list: the value of the
first entry with the given key. -/
def amLookup {κ α : Type} [DecidableEq κ] : List (κ × α) → κ → Option α
  | [], _ => none
  | p :: t, k => if p.1 = k then some p.2 else amLookup t k

/-- Go map assignment `m[k] = v`: replace the entry in place if the key is
present, otherwise append a new entry. -/
def amInsert {κ α : Type} [DecidableEq κ] (m : List (κ × α)) (k : κ) (v : α) :
    List (κ × α) :=
  if m.any (fun p => decide (p.1 = k)) then
    m.map (fun p => if p.1 = k then (k, v) else p)
  else
    m ++ [(k, v)]

/-- Go `delete(m, k)`: remove every entry with the given key. -/
def amErase {κ α : Type} [DecidableEq κ] (m : List (κ × α)) (k : κ) :
    List (κ × α) :=
  m.filter (fun p => !decide (p.1 = k))

/-! ## Segment utilities

Modelled from the spec: the repository calls helper functions
`split(trim(path, "/"), "/")` whose source file is not part of `src/`;
per the spec (section 2 "Segment utilities" and section 3 "Segment") they
turn a path into the ordered sequence of its non-empty `/`-separated
components. -/

/-- Accumulating scanner over the characters of a path: collects maximal
runs of non-`/` characters as segments, dropping empty runs. -/
def segsOf : List Char → List Char → List String
  | cur, [] => if cur.isEmpty then [] else [String.mk cur.reverse]
  | cur, c :: cs =>
    if c = '/' then
      if cur.isEmpty then segsOf [] cs
      else String.mk cur.reverse :: segsOf [] cs
    else segsOf (c :: cur) cs

/-- Modelled from the spec: `split(trim(path, "/"), "/")` — the ordered
sequence of non-empty segments of a path. -/
def segments (path : String) : List String :=
  segsOf [] path.data

/-- Go `path[len(path)-1:] == c` for a one-byte ASCII `c`: the last
character test (for ASCII, last byte and last character agree). -/
def lastCharIs (s : String) (c : Char) : Bool :=
  s.data.getLast? == some c

/-- Go `path[:len(path)-1]` when the last byte is the ASCII `/`: drop the
final character. -/
def dropLastChar (s : String) : String :=
  String.mk s.data.dropLast

/-- Go `len(k) > 0 && string([]rune(k)[0]) == c`: the first character
test, false on the empty string. -/
def firstCharIs (s : String) (c : Char) : Bool :=
  s.data.head? == some c

/-- Go `strings.TrimPrefix(k, ":")`, used only on keys whose first
character is `:`. -/
def dropFirstChar (s : String) : String :=
  String.mk (s.data.drop 1)

/-! ## Data model: `Handler`, `node`, `Mux` (router.go lines 55-67, 20-35) -/

/-- `Handler` from router.go: pattern string, its segments, the wildcard
flag (`patt[len(patt)-1:] == "*"`) and the handler chain (opaque ids). -/
structure Handler where
  patt : String
  parts : List String
  wild : Bool
  handlers : List Nat
deriving Repr, DecidableEq

/-- `node` from router.go: a pattern (or the `"empty"` pass-through
sentinel), an optional `Handler` (`nil` for pass-through nodes), and the
children map. -/
inductive Node : Type where
  | mk (pattern : String) (handler : Option Handler)
       (children : List (String × Node))

/-- The `pattern` field of a node. -/
def Node.pattern : Node → String
  | .mk p _ _ => p

/-- The `handler` field of a node (`none` models Go's `nil`). -/
def Node.handler : Node → Option Handler
  | .mk _ h _ => h

/-- The `children` map of a node. -/
def Node.children : Node → List (String × Node)
  | .mk _ _ cs => cs

/-- `nd.children[k] = v` on a node. -/
def Node.setChild (nd : Node) (k : String) (v : Node) : Node :=
  .mk nd.pattern nd.handler (amInsert nd.children k v)

/-- The routing state of a `Mux`: the per-method forest `root`
(router.go line 21). -/
structure Mux where
  root : List (String × Node)
deriving Inhabited

/-- `New()` restricted to the routing state: an empty per-method map. -/
def Mux.new : Mux := ⟨[]⟩

/-! ## Registration (`addnode`, `add`, verb helpers; router.go 230-309) -/

/-- The loop body of `addnode` (router.go 230-248), recursing on the
pattern's segments:
* a `*` segment is attached immediately as the `*` child and the loop
  breaks;
* the last segment attaches the terminal node (replacing any existing
  child, last registration wins);
* otherwise the walk descends, creating an `"empty"` pass-through node
  when the child is missing. -/
def addsegs : Node → List String → Node → Node
  | nd, [], _ => nd
  | nd, seg :: rest, n =>
    if seg == "*" then nd.setChild "*" n
    else
      match rest, amLookup nd.children seg with
      | [], _ => nd.setChild seg n
      | _ :: _, some c => nd.setChild seg (addsegs c rest n)
      | _ :: _, none => nd.setChild seg (addsegs (.mk "empty" none []) rest n)

/-- `addnode(nd, n)` from router.go: insert the node `n` along the
segments of its pattern. -/
def addnode (nd : Node) (n : Node) : Node :=
  addsegs nd (segments n.pattern) n

/-- The body of `Mux.add` (router.go 255-273) after the wildcard-flag
slice `patt[len(patt)-1:]` has succeeded: build the `Handler` and the
terminal node and insert it under the method's root (created on demand). -/
def Mux.addCore (m : Mux) (meth patt : String) (handlers : List Nat) : Mux :=
  let h : Handler :=
    { patt := patt
      parts := segments patt
      wild := lastCharIs patt '*'
      handlers := handlers }
  let base : Node :=
    match amLookup m.root meth with
    | some nd => nd
    | none => .mk "" none []
  let n : Node := .mk patt (some h) []
  ⟨amInsert m.root meth (addnode base n)⟩

/-- `Mux.add` from router.go: the slice expression `patt[len(patt)-1:]`
panics (slice bounds out of range) when `patt` is empty, modelled as
`none`; otherwise the route is registered. -/
def Mux.add (m : Mux) (meth patt : String) (handlers : List Nat) :
    Option Mux :=
  if patt = "" then none
  else some (m.addCore meth patt handlers)

/-- `Mux.Add` (router.go 250-253), forwarding to `add`. -/
def Mux.Add (m : Mux) (meth patt : String) (handlers : List Nat) :
    Option Mux :=
  m.add meth patt handlers

/-- `Mux.GET` (router.go 276-279): registers for GET and then HEAD; if the
first `add` panics the second is never reached. -/
def Mux.GET (m : Mux) (patt : String) (handlers : List Nat) : Option Mux :=
  (m.add "GET" patt handlers).bind (fun m1 => m1.add "HEAD" patt handlers)

/-- `Mux.HEAD` (router.go 282-284). -/
def Mux.HEAD (m : Mux) (patt : String) (handlers : List Nat) : Option Mux :=
  m.add "HEAD" patt handlers

/-- `Mux.POST` (router.go 287-289). -/
def Mux.POST (m : Mux) (patt : String) (handlers : List Nat) : Option Mux :=
  m.add "POST" patt handlers

/-- `Mux.PUT` (router.go 292-294). -/
def Mux.PUT (m : Mux) (patt : String) (handlers : List Nat) : Option Mux :=
  m.add "PUT" patt handlers

/-- `Mux.DELETE` (router.go 297-299). -/
def Mux.DELETE (m : Mux) (patt : String) (handlers : List Nat) : Option Mux :=
  m.add "DELETE" patt handlers

/-- `Mux.OPTIONS` (router.go 302-304). -/
def Mux.OPTIONS (m : Mux) (patt : String) (handlers : List Nat) : Option Mux :=
  m.add "OPTIONS" patt handlers

/-- `Mux.PATCH` (router.go 307-309). -/
def Mux.PATCH (m : Mux) (patt : String) (handlers : List Nat) : Option Mux :=
  m.add "PATCH" patt handlers

/-! ## Lookup (`ServeHTTP`, router.go 338-423) -/

/-- Bindings collected during a walk (the `vrs` Go map). -/
abbrev VarMap := List (String × String)

/-- Result of the segment loop of `ServeHTTP`:
* `found nd vrs` — the loop completed (by running out of segments or by
  `break`) with the current node `nd`; `found none` models the Go variable
  `nd` holding `nil` (the pass-through-at-final-segment path reassigns
  `xnode` to the missing `*` child);
* `notFound` — the loop returned early through `m.notFound`. -/
inductive WalkRes : Type where
  | found (nd : Option Node) (vrs : VarMap)
  | notFound

/-- The first child whose key begins with `:` in iteration order — the
`for k, v := range nd.children` scan of router.go 369-377.  Go map
iteration order is unspecified; the model uses list (insertion) order. -/
def findNamed (cs : List (String × Node)) : Option (String × Node) :=
  cs.find? (fun p => firstCharIs p.1 ':')

/-- The segment loop of `ServeHTTP` (router.go 360-397).  `i` is the loop
index and `total` is `len(segments)`, kept so that the source's
`i > len(segments)` comparison appears verbatim.  Per segment:
* an exact literal child is followed; if it is the `"empty"` pass-through
  sentinel and this is the last segment, the walk moves to its `*` child,
  or to `nil` when there is none (Go's `if xnode, ok = xnode.children["*"]`
  overwrites `xnode` with the zero value on a miss);
* otherwise a `*` child ends the walk immediately;
* otherwise the first `:`-keyed child (iteration order) is entered and the
  segment's value bound; if any binding has been collected the loop
  continues (the `i > len(segments)` break guard is never true), else the
  request is not matched. -/
def walkLoop : Node → List String → Nat → Nat → VarMap → WalkRes
  | nd, [], _, _, vrs => .found (some nd) vrs
  | nd, seg :: rest, i, total, vrs =>
    match amLookup nd.children seg with
    | some xnode =>
      if xnode.pattern == "empty" && rest.isEmpty then
        match amLookup xnode.children "*" with
        | some star => .found (some star) vrs
        | none => .found none vrs
      else
        walkLoop xnode rest (i + 1) total vrs
    | none =>
      match amLookup nd.children "*" with
      | some star => .found (some star) vrs
      | none =>
        match findNamed nd.children with
        | some kv =>
          let vrs1 := amInsert vrs (dropFirstChar kv.1) seg
          if vrs1.isEmpty then .notFound
          else if i > total then .found (some kv.2) vrs1
          else walkLoop kv.2 rest (i + 1) total vrs1
        | none =>
          if vrs.isEmpty then .notFound
          else if i > total then .found (some nd) vrs
          else walkLoop nd rest (i + 1) total vrs

/-- Observable outcome of one `ServeHTTP` call:
* `redirect loc` — HTTP 301 with `Location: loc`;
* `notFound` — the 404 path (custom or default handler);
* `matched h vrs` — the handler chain of `h` runs with bindings `vrs`;
* `nilPanic` — the Go code dereferences the `nil` `handler` field of the
  final node (`nd.handler.handlers`), a runtime crash. -/
inductive Outcome : Type where
  | redirect (loc : String)
  | notFound
  | matched (h : Handler) (vrs : VarMap)
  | nilPanic
deriving Repr, DecidableEq

/-- `ServeHTTP` (router.go 338-423) up to the invocation of the handler
chain: trailing-slash redirect, method-root lookup, segment walk, the
`nd == nil` check, and the dereference of the final node's handler. -/
def serveHTTP (m : Mux) (meth path : String) : Outcome :=
  if path.data.length > 1 && lastCharIs path '/' then
    .redirect (dropLastChar path)
  else
    let segs := segments path
    match amLookup m.root meth with
    | none => .notFound
    | some nd =>
      match walkLoop nd segs 0 segs.length [] with
      | .notFound => .notFound
      | .found none _ => .notFound
      | .found (some fin) vrs =>
        match fin.handler with
        | none => .nilPanic
        | some h => .matched h vrs

/-! ## Parameter store (`vars`, `Vars`, `Var`, `deleteVars`;
router.go 69-104; Legacy revision lines 24-66) -/

/-- The package-level `vars.sessions` map, keyed by request identity. -/
abbrev Sessions := List (Nat × VarMap)

/-- `deleteVars(r)` from router.go 76-81. -/
def deleteVars (s : Sessions) (r : Nat) : Sessions :=
  amErase s r

/-- `Vars(r)` from router.go 84-91: the stored binding, or a fresh empty
map when the request stored none. -/
def Vars (s : Sessions) (r : Nat) : VarMap :=
  match amLookup s r with
  | some v => v
  | none => []

/-- `Var(r, n)` from router.go 94-104: the named value, or `""` both when
the request stored no binding and when the binding lacks the name. -/
def Var (s : Sessions) (r : Nat) (n : String) : String :=
  match amLookup s r with
  | some session =>
    match amLookup session n with
    | some v => v
    | none => ""
  | none => ""

namespace Legacy

/-- The error values `ErrNoSession` and `ErrNoVar` of the earlier revision
of router.go. -/
inductive VarErr : Type where
  | noSession
  | noVar
deriving Repr, DecidableEq

/-- `Vars(r)` of the earlier revision (lines 45-52): the binding with no
error, or an empty map with `ErrNoSession`. -/
def Vars (s : Sessions) (r : Nat) : VarMap × Option VarErr :=
  match amLookup s r with
  | some v => (v, none)
  | none => ([], some .noSession)

/-- `Var(r, n)` of the earlier revision (lines 55-66).  Faithful to the
source: the success branch also returns `ErrNoVar` (`return v, ErrNoVar`),
contradicting its own doc comment; the two miss branches return
`ErrNoVar` and `ErrNoSession` respectively. -/
def Var (s : Sessions) (r : Nat) (n : String) : String × Option VarErr :=
  match amLookup s r with
  | some session =>
    match amLookup session n with
    | some v => (v, some .noVar)
    | none => ("", some .noVar)
  | none => ("", some .noSession)

end Legacy

/-! ## Handler-chain execution and the store (`ServeHTTP` 404-422)

The loop `for _, handler := range nd.handler.handlers` creates a fresh
request value each iteration (`r = r.WithContext(ctx)`), stores the
binding under it when `vrs` is non-empty, registers `defer deleteVars(r)`,
and runs the handler (which may panic).  Go runs all registered deferred
calls, last-in first-out, on every exit including a panic unwind.  An
iteration is modelled as a pair of the fresh request identity and whether
its handler panics. -/

/-- The handler loop: threads the sessions map through the iterations,
stopping at the first panicking handler, and collects the request
identities whose deletion was deferred. -/
def bindAndRun (vrs : VarMap) : Sessions → List (Nat × Bool) →
    Sessions × List Nat
  | s, [] => (s, [])
  | s, it :: rest =>
    let s1 := if vrs.isEmpty then s else amInsert s it.1 vrs
    let d1 : List Nat := if vrs.isEmpty then [] else [it.1]
    if it.2 then (s1, d1)
    else
      let r2 := bindAndRun vrs s1 rest
      (r2.1, d1 ++ r2.2)

/-- Run the deferred `deleteVars` calls, last registered first. -/
def runDeferred : Sessions → List Nat → Sessions
  | s, [] => s
  | s, d :: ds => amErase (runDeferred s ds) d

/-- The net effect of one dispatch on the sessions map: the handler loop
followed by its deferred deletions (which also run when a handler
panics). -/
def serveVars (s : Sessions) (vrs : VarMap) (iters : List (Nat × Bool)) :
    Sessions :=
  let r := bindAndRun vrs s iters
  runDeferred r.1 r.2

/-! ## Connection tracker (router.go 156-185, 203-221) -/

/-- The `idle` and `active` connection sets of a `Mux`, with `net.Conn`
values as `Nat` identifiers.  Go's `map[net.Conn]struct{}` sets become
duplicate-free lists. -/
structure Tracker where
  active : List Nat
  idle : List Nat
deriving Repr, DecidableEq

/-- Set insertion (`m[conn] = struct{}{}`). -/
def setAdd (l : List Nat) (c : Nat) : List Nat :=
  if l.contains c then l else l ++ [c]

/-- Set removal (`delete(m, conn)`). -/
def setDel (l : List Nat) (c : Nat) : List Nat :=
  l.filter (fun x => !(x == c))

/-- `removeIdleConnection` (router.go 156-160). -/
def removeIdleConnection (t : Tracker) (c : Nat) : Tracker :=
  { t with idle := setDel t.idle c }

/-- `removeActiveConnection` (router.go 162-166). -/
def removeActiveConnection (t : Tracker) (c : Nat) : Tracker :=
  { t with active := setDel t.active c }

/-- `activeConnection` (router.go 168-173): add to the active set, then
remove from the idle set. -/
def activeConnection (t : Tracker) (c : Nat) : Tracker :=
  removeIdleConnection { t with active := setAdd t.active c } c

/-- `removeConnection` (router.go 175-178): remove from both sets. -/
def removeConnection (t : Tracker) (c : Nat) : Tracker :=
  removeIdleConnection (removeActiveConnection t c) c

/-- `idleConnection` (router.go 180-185), faithful to the source: the
connection is inserted into the idle set and then immediately deleted
from it (`m.idle.conns[conn] = struct{}{}` followed by
`delete(m.idle.conns, conn)`); the active set is never touched. -/
def idleConnection (t : Tracker) (c : Nat) : Tracker :=
  { t with idle := setDel (setAdd t.idle c) c }

/-- The connection-state notifications delivered by the transport
(router.go 206-216). -/
inductive ConnEvent : Type where
  | new
  | active
  | idle
  | closed
  | hijacked
deriving Repr, DecidableEq

/-- The `ConnState` callback switch installed by `Listen`
(router.go 206-216). -/
def connState (t : Tracker) (c : Nat) : ConnEvent → Tracker
  | .new => activeConnection t c
  | .active => activeConnection t c
  | .idle => idleConnection t c
  | .closed => removeConnection t c
  | .hijacked => removeConnection t c

/-! ## Graceful shutdown (`ninjaListener`, `Listen`, `Close`;
router.go 37-53, 125-151, 188-228) -/

/-- The `ninjaListener` wrapper value: only its `closing` flag matters to
the model (the embedded `net.Listener` is shared underlying state). -/
structure NL where
  closing : Bool
deriving Repr, DecidableEq

/-- `ninjaListener.Accept` (router.go 42-47): an error once `closing` is
set, otherwise the call is delegated to the wrapped listener (`ok`). -/
def NL.accept (nl : NL) : Except String Unit :=
  if nl.closing then .error "Listener is closing" else .ok ()

/-- The server-lifecycle state of a `Mux`: drain timeout, the listener
value stored in the `Mux` field, the separate listener copy that
`Listen` passed to `srv.Serve` (Go structs are copied by value at
line 225, `srv.Serve(listener)`), and the tracked connection sets. -/
structure SrvMux where
  timeout : Nat
  listener : NL
  serveListener : NL
  idleConns : List Nat
  activeConns : List Nat
deriving Repr, DecidableEq

/-- `Listen` (router.go 188-228) restricted to listener state: the local
`listener` value is assigned to `m.listener` and a copy of it is handed
to `srv.Serve`; both start with `closing = false`. -/
def listen (m : SrvMux) : SrvMux :=
  { m with listener := ⟨false⟩, serveListener := ⟨false⟩ }

/-- What one `Close()` call did: which connections were closed from the
idle set, and how long the single timer wait before
`m.listener.Close()` was. -/
structure CloseReport where
  closedIdle : List Nat
  wait : Nat
deriving Repr, DecidableEq

/-- `Close` (router.go 125-151): sets `closing` on the `Mux`'s own
listener value (the copy inside `srv.Serve` is a distinct value and is
not written), closes every connection in the idle set, then — when the
timeout is positive and the active set non-empty — waits one full
timeout before closing the underlying listener, else closes it at
once. -/
def close (m : SrvMux) : SrvMux × CloseReport :=
  let m1 := { m with listener := ⟨true⟩ }
  let w := if m1.timeout > 0 && !m1.activeConns.isEmpty then m1.timeout else 0
  (m1, { closedIdle := m1.idleConns, wait := w })

/-! ## Helper lemmas on the association-list operations -/

/-- Lookup of a key in the singleton map holding exactly that key. -/
theorem amLookup_singleton_self {α : Type} (k : String) (v : α) :
    amLookup [(k, v)] k = some v := by
  simp [amLookup]

/-- Replacing the value at one key in place leaves lookups of a
different key unchanged. -/
theorem amLookup_map_replace {α : Type} (k k' : Nat) (v : α) (h : k ≠ k')
    (t : List (Nat × α)) :
    amLookup (t.map (fun p => if p.1 = k then (k, v) else p)) k'
      = amLookup t k' := by
  induction t with
  | nil => rfl
  | cons p t ih =>
    simp only [List.map_cons, amLookup]
    by_cases hpk : p.1 = k
    · rw [if_pos hpk, if_neg (fun e : (k, v).1 = k' => h e),
        if_neg (fun e : p.1 = k' => h (hpk.symm.trans e)), ih]
    · rw [if_neg hpk]
      by_cases hp' : p.1 = k'
      · rw [if_pos hp', if_pos hp']
      · rw [if_neg hp', if_neg hp', ih]

/-- Appending an entry with one key leaves lookups of a different key
unchanged. -/
theorem amLookup_append_single_ne {α : Type} (k k' : Nat) (v : α)
    (h : k ≠ k') (t : List (Nat × α)) :
    amLookup (t ++ [(k, v)]) k' = amLookup t k' := by
  induction t with
  | nil =>
    simp only [List.nil_append, amLookup]
    rw [if_neg (fun e : (k, v).1 = k' => h e)]
  | cons p t ih =>
    simp only [List.cons_append, amLookup]
    by_cases hp' : p.1 = k'
    · rw [if_pos hp', if_pos hp']
    · rw [if_neg hp', if_neg hp']
      exact ih

/-- Inserting under one key leaves lookups of a different key unchanged. -/
theorem amLookup_amInsert_ne {α : Type} (m : List (Nat × α)) (k k' : Nat)
    (v : α) (h : k ≠ k') :
    amLookup (amInsert m k v) k' = amLookup m k' := by
  unfold amInsert
  split
  · exact amLookup_map_replace k k' v h m
  · exact amLookup_append_single_ne k k' v h m

/-- After `delete(m, k)` the key `k` is absent. -/
theorem amLookup_amErase_self {α : Type} (m : List (Nat × α)) (k : Nat) :
    amLookup (amErase m k) k = none := by
  induction m with
  | nil => rfl
  | cons p t ih =>
    simp only [amErase, List.filter_cons] at ih ⊢
    by_cases hp : p.1 = k
    · rw [if_neg (by simp [hp])]
      exact ih
    · rw [if_pos (by simp [hp])]
      simp only [amLookup]
      rw [if_neg hp]
      exact ih

/-- `delete(m, k)` leaves lookups of a different key unchanged. -/
theorem amLookup_amErase_ne {α : Type} (m : List (Nat × α)) (k k' : Nat)
    (h : k ≠ k') :
    amLookup (amErase m k) k' = amLookup m k' := by
  induction m with
  | nil => rfl
  | cons p t ih =>
    simp only [amErase, List.filter_cons] at ih ⊢
    by_cases hp : p.1 = k
    · rw [if_neg (by simp [hp])]
      simp only [amLookup]
      rw [if_neg (fun e : p.1 = k' => h (hp.symm.trans e)), ih]
    · rw [if_pos (by simp [hp])]
      simp only [amLookup]
      by_cases hp' : p.1 = k'
      · rw [if_pos hp', if_pos hp']
      · rw [if_neg hp', if_neg hp', ih]

/-! ## Helper lemmas on the dispatch-store model -/

/-- Every deferred deletion belongs to one of the loop's iterations. -/
theorem bindAndRun_snd_subset (vrs : VarMap) (iters : List (Nat × Bool)) :
    ∀ (s : Sessions) (r : Nat), r ∈ (bindAndRun vrs s iters).2 →
      r ∈ iters.map Prod.fst := by
  induction iters with
  | nil => intro s r h; simp [bindAndRun] at h
  | cons it rest ih =>
    intro s r h
    simp only [bindAndRun] at h
    simp only [List.map_cons, List.mem_cons]
    by_cases hv : vrs.isEmpty = true
    · by_cases hp : it.2 = true
      · simp [hv, hp] at h
      · simp [hv, hp] at h
        exact Or.inr (ih _ r h)
    · by_cases hp : it.2 = true
      · simp [hv, hp] at h
        exact Or.inl h
      · simp [hv, hp] at h
        rcases h with h1 | h2
        · exact Or.inl h1
        · exact Or.inr (ih _ r h2)

/-- A request identity with no deferred deletion was never written by the
loop: its lookup is unchanged. -/
theorem bindAndRun_fst_lookup (vrs : VarMap) (iters : List (Nat × Bool))
    (r : Nat) :
    ∀ (s : Sessions), r ∉ (bindAndRun vrs s iters).2 →
      amLookup (bindAndRun vrs s iters).1 r = amLookup s r := by
  induction iters with
  | nil => intro s _; simp [bindAndRun]
  | cons it rest ih =>
    intro s h
    simp only [bindAndRun] at h ⊢
    by_cases hv : vrs.isEmpty = true
    · by_cases hp : it.2 = true
      · simp [hv, hp]
      · simp [hv, hp] at h ⊢
        exact ih s h
    · by_cases hp : it.2 = true
      · simp [hv, hp] at h ⊢
        exact amLookup_amInsert_ne s it.1 r vrs (fun e => h e.symm)
      · simp [hv, hp] at h ⊢
        obtain ⟨h1, h2⟩ := h
        rw [ih _ h2, amLookup_amInsert_ne s it.1 r vrs (fun e => h1 e.symm)]

/-- Running the deferred deletions removes every listed identity. -/
theorem runDeferred_mem (r : Nat) (ds : List Nat) :
    ∀ (s : Sessions), r ∈ ds → amLookup (runDeferred s ds) r = none := by
  induction ds with
  | nil => intro s h; simp at h
  | cons d t ih =>
    intro s h
    simp only [runDeferred]
    by_cases hd : d = r
    · rw [hd, amLookup_amErase_self]
    · rw [amLookup_amErase_ne _ _ _ hd]
      rcases List.mem_cons.mp h with h1 | h2
      · exact absurd h1.symm hd
      · exact ih s h2

/-- Running the deferred deletions leaves unlisted identities unchanged. -/
theorem runDeferred_not_mem (r : Nat) (ds : List Nat) :
    ∀ (s : Sessions), r ∉ ds → amLookup (runDeferred s ds) r = amLookup s r := by
  induction ds with
  | nil => intro s _; rfl
  | cons d t ih =>
    intro s h
    simp only [runDeferred]
    have hd : d ≠ r := fun he => h (by simp [he])
    rw [amLookup_amErase_ne _ _ _ hd, ih s (fun hm => h (List.mem_cons.mpr (Or.inr hm)))]

/-! ## Claim theorems -/

/-- C1: the claim says that a segment walk ending on a node carrying no
`Handler` yields the not-matched (404) signal.  The code violates this: a
handler-less node reached through the named-parameter branch is
dereferenced (`nd.handler.handlers` with `nd.handler == nil`), a crash —
after registering `GET /:a/b`, the request `GET /z` ends on the
pass-through `:a` node and panics.  The claim's particular sub-case does
hold: a pass-through node reached by a literal match on the final segment
without a wildcard child produces 404 (second conjunct). -/
theorem claim_c1_nil_handler_crash :
    serveHTTP (Mux.new.addCore "GET" "/:a/b" [11]) "GET" "/z" = Outcome.nilPanic
    ∧ serveHTTP (Mux.new.addCore "GET" "/a/b" [12]) "GET" "/a"
        = Outcome.notFound := by
  exact ⟨by decide, by decide⟩

/-- C2 counterexample: the claim says the lookup result does not depend on
the order in which routes were registered.  Registering the same two
routes `GET /a/:x/p` and `GET /a/:y/q` in the two possible orders gives
different outcomes for `GET /a/m/q` (one order crashes on the
pass-through `:x` node, the other matches `/a/:y/q`), because the walk
takes whichever named-parameter child it encounters first. -/
theorem claim_c2_order_dependent :
    serveHTTP ((Mux.new.addCore "GET" "/a/:x/p" [1]).addCore "GET" "/a/:y/q" [2])
        "GET" "/a/m/q"
      ≠ serveHTTP ((Mux.new.addCore "GET" "/a/:y/q" [2]).addCore "GET" "/a/:x/p" [1])
        "GET" "/a/m/q" := by
  decide

/-- C2 (amended): at every depth of the walk the tie-break order holds —
when an exact literal child exists for the current segment the walk's
result only depends on that child (wildcard and named siblings are
ignored), and when no literal child exists but a wildcard child does, the
wildcard is taken (named siblings are ignored).  The choice among several
named-parameter children of one node, however, follows container
iteration order and so can depend on registration order
(`claim_c2_order_dependent`). -/
theorem claim_c2_tie_break (nd : Node) (seg : String) (rest : List String)
    (i total : Nat) (vrs : VarMap) :
    (∀ c, amLookup nd.children seg = some c →
       walkLoop nd (seg :: rest) i total vrs
         = walkLoop (Node.mk nd.pattern nd.handler [(seg, c)])
             (seg :: rest) i total vrs)
    ∧ (amLookup nd.children seg = none →
       ∀ star, amLookup nd.children "*" = some star →
         walkLoop nd (seg :: rest) i total vrs = WalkRes.found (some star) vrs) := by
  obtain ⟨p, hdl, cs⟩ := nd
  constructor
  · intro c hc
    simp only [Node.children] at hc
    simp only [walkLoop, Node.pattern, Node.handler, Node.children, hc,
      amLookup_singleton_self]
  · intro h0 star hs
    simp only [Node.children] at h0 hs
    simp only [walkLoop, Node.children, h0, hs]

/-- C2 witness: the tie-break theorem applied to a concrete node having a
literal child next to a wildcard child, and to a node with only a
wildcard child. -/
theorem claim_c2_tie_break_witness :
    (walkLoop
        (Node.mk "" none
          [("a", Node.mk "/a" (some ⟨"/a", ["a"], false, [1]⟩) []),
           ("*", Node.mk "/*" (some ⟨"/*", ["*"], true, [2]⟩) [])])
        ["a"] 0 1 []
      = walkLoop
          (Node.mk "" none
            [("a", Node.mk "/a" (some ⟨"/a", ["a"], false, [1]⟩) [])])
          ["a"] 0 1 [])
    ∧ (walkLoop
        (Node.mk "" none [("*", Node.mk "/*" (some ⟨"/*", ["*"], true, [2]⟩) [])])
        ["z"] 0 1 []
      = WalkRes.found (some (Node.mk "/*" (some ⟨"/*", ["*"], true, [2]⟩) [])) []) :=
  ⟨(claim_c2_tie_break
      (Node.mk "" none
        [("a", Node.mk "/a" (some ⟨"/a", ["a"], false, [1]⟩) []),
         ("*", Node.mk "/*" (some ⟨"/*", ["*"], true, [2]⟩) [])])
      "a" [] 0 1 []).1
      (Node.mk "/a" (some ⟨"/a", ["a"], false, [1]⟩) []) rfl,
   (claim_c2_tie_break
      (Node.mk "" none [("*", Node.mk "/*" (some ⟨"/*", ["*"], true, [2]⟩) [])])
      "z" [] 0 1 []).2 rfl
      (Node.mk "/*" (some ⟨"/*", ["*"], true, [2]⟩) []) rfl⟩

/-- C3: after registering `GET /pokemon/*`, the request
`GET /pokemon/pikachu/evolve` matches that route (the wildcard consumes
multiple segments) and `GET /pokemon` also matches it (the wildcard
consumes zero segments, through the pass-through node's `*` child at the
final segment); and in general, entering a wildcard child stops segment
iteration at once — the walk returns that child whatever the remaining
segments are. -/
theorem claim_c3_wildcard :
    (serveHTTP (Mux.new.addCore "GET" "/pokemon/*" [31]) "GET"
        "/pokemon/pikachu/evolve"
      = Outcome.matched ⟨"/pokemon/*", ["pokemon", "*"], true, [31]⟩ [])
    ∧ (serveHTTP (Mux.new.addCore "GET" "/pokemon/*" [31]) "GET" "/pokemon"
      = Outcome.matched ⟨"/pokemon/*", ["pokemon", "*"], true, [31]⟩ [])
    ∧ (∀ (nd star : Node) (seg : String) (rest : List String)
         (i total : Nat) (vrs : VarMap),
        amLookup nd.children seg = none →
        amLookup nd.children "*" = some star →
        walkLoop nd (seg :: rest) i total vrs = WalkRes.found (some star) vrs) := by
  refine ⟨by decide, by decide, ?_⟩
  intro nd star seg rest i total vrs h0 hs
  obtain ⟨p, hdl, cs⟩ := nd
  simp only [Node.children] at h0 hs
  simp only [walkLoop, Node.children, h0, hs]

/-- C3 witness: the stop-at-wildcard clause applied at a concrete node
and non-empty remaining segments. -/
theorem claim_c3_wildcard_witness :
    walkLoop
        (Node.mk "x" none [("*", Node.mk "/p/*" (some ⟨"/p/*", ["p", "*"], true, [7]⟩) [])])
        ["q", "r"] 0 2 []
      = WalkRes.found (some (Node.mk "/p/*" (some ⟨"/p/*", ["p", "*"], true, [7]⟩) [])) [] :=
  claim_c3_wildcard.2.2
    (Node.mk "x" none [("*", Node.mk "/p/*" (some ⟨"/p/*", ["p", "*"], true, [7]⟩) [])])
    (Node.mk "/p/*" (some ⟨"/p/*", ["p", "*"], true, [7]⟩) [])
    "q" ["r"] 0 2 [] rfl rfl

/-- C4: named-parameter segments bind the matched segment's value under
the identifier after the colon — registering `GET /hello/:name` makes
`GET /hello/joe` match with binding `name = "joe"`, and registering
`GET /hello/:first/:last` makes `GET /hello/joe/blow` match with
bindings `first = "joe"`, `last = "blow"`. -/
theorem claim_c4_named_bindings :
    (serveHTTP (Mux.new.addCore "GET" "/hello/:name" [41]) "GET" "/hello/joe"
      = Outcome.matched ⟨"/hello/:name", ["hello", ":name"], false, [41]⟩
          [("name", "joe")])
    ∧ (serveHTTP (Mux.new.addCore "GET" "/hello/:first/:last" [42]) "GET"
        "/hello/joe/blow"
      = Outcome.matched
          ⟨"/hello/:first/:last", ["hello", ":first", ":last"], false, [42]⟩
          [("first", "joe"), ("last", "blow")]) := by
  exact ⟨by decide, by decide⟩

/-- C5: the claim says `Vars`/`Var` make "no binding at all" and "binding
without the requested name" distinguishable.  The current `Var`
(router.go 94-104) returns `""` in both cases — with sessions holding a
binding only for request `2`, `Var` on the session-less request `1` and
`Var` on request `2` with an absent name coincide (first conjunct).  The
earlier revision's error-returning `Var` does distinguish the two misses
(`ErrNoSession` vs `ErrNoVar`, second conjunct), and it is that two-value
API that the repository's own tests and README still call. -/
theorem claim_c5_var_miss_conflated :
    (Var [(2, [("a", "1")])] 1 "a" = Var [(2, [("a", "1")])] 2 "b"
      ∧ Var [(2, [("a", "1")])] 1 "a" = "")
    ∧ ((Legacy.Var [(2, [("a", "1")])] 1 "a").2 = some Legacy.VarErr.noSession
      ∧ (Legacy.Var [(2, [("a", "1")])] 2 "b").2 = some Legacy.VarErr.noVar) := by
  exact ⟨⟨by decide, by decide⟩, ⟨by decide, by decide⟩⟩

/-- C6: the claim says an `idle` notification moves the connection from
the active set into the idle set.  The code does not: `idleConnection`
inserts the connection into the idle set and deletes it again on the next
line, and never touches the active set — for a tracker with connection 7
active, the `idle` notification leaves 7 in the active set and the idle
set empty. -/
theorem claim_c6_idle_transition_bug :
    (connState ⟨[7], []⟩ 7 ConnEvent.idle).active = [7]
    ∧ (connState ⟨[7], []⟩ 7 ConnEvent.idle).idle = [] := by
  exact ⟨by decide, by decide⟩

/-- C7: the claim says that after `Close()` every subsequent `Accept`
call returns an error, so no new connections are accepted.  `Close` sets
the `closing` flag on the `Mux`'s own listener value only; the listener
value that `Listen` passed to `srv.Serve` is a by-value copy whose flag
stays `false`, so the accept loop's `Accept` still succeeds (first
conjunct) even though `Accept` on `m.listener` errors (second conjunct).
The remaining behaviour matches the claim at this input: all idle
connections are closed and, the timeout being positive with a non-empty
active set, the listener is closed after a single wait of exactly the
timeout (third conjunct). -/
theorem claim_c7_close_copy_accepts :
    ((close (listen ⟨10, ⟨false⟩, ⟨false⟩, [3], [5]⟩)).1.serveListener.accept
      = Except.ok ())
    ∧ ((close (listen ⟨10, ⟨false⟩, ⟨false⟩, [3], [5]⟩)).1.listener.accept
      = Except.error "Listener is closing")
    ∧ (close (listen ⟨10, ⟨false⟩, ⟨false⟩, [3], [5]⟩)).2 = ⟨[3], 10⟩ := by
  exact ⟨rfl, rfl, rfl⟩

/-- C8: parameter bindings are request-isolated and released on every
exit path.  For any initial sessions map, binding, and handler loop
(each iteration a fresh request identity and a flag saying whether that
handler panics — deferred deletions run in both cases): a request
identity that had no binding before dispatch has none after it (every
stored binding is removed, also when a handler panics mid-chain), and
the binding of any request not involved in the dispatch is untouched. -/
theorem claim_c8_release_isolation (s : Sessions) (vrs : VarMap)
    (iters : List (Nat × Bool)) (r : Nat) :
    (amLookup s r = none → amLookup (serveVars s vrs iters) r = none)
    ∧ (r ∉ iters.map Prod.fst →
        amLookup (serveVars s vrs iters) r = amLookup s r) := by
  constructor
  · intro h0
    by_cases hm : r ∈ (bindAndRun vrs s iters).2
    · exact runDeferred_mem r _ _ hm
    · rw [serveVars, runDeferred_not_mem r _ _ hm,
        bindAndRun_fst_lookup vrs iters r s hm, h0]
  · intro hnot
    have hm : r ∉ (bindAndRun vrs s iters).2 :=
      fun h => hnot (bindAndRun_snd_subset vrs iters s r h)
    rw [serveVars, runDeferred_not_mem r _ _ hm,
      bindAndRun_fst_lookup vrs iters r s hm]

/-- C8 witness: a dispatch that binds `name = joe` under the fresh
request identity 5 leaves no binding for 5 afterwards, and leaves the
uninvolved identity 9 unchanged. -/
theorem claim_c8_release_isolation_witness :
    (amLookup (serveVars [] [("name", "joe")] [(5, false)]) 5 = none)
    ∧ (amLookup (serveVars [] [("name", "joe")] [(5, false)]) 9
        = amLookup ([] : Sessions) 9) :=
  ⟨(claim_c8_release_isolation [] [("name", "joe")] [(5, false)] 5).1 rfl,
   (claim_c8_release_isolation [] [("name", "joe")] [(5, false)] 9).2 (by decide)⟩

/-- C9: for every route table, every method and every path longer than
one character that ends in `/`, the dispatcher responds 301 with the
slash-stripped location before any route lookup (the result does not
depend on the `Mux` at all); the root `/` fails the length guard and is
exempt. -/
theorem claim_c9_redirect (m : Mux) (meth path : String)
    (h1 : 1 < path.data.length) (h2 : lastCharIs path '/' = true) :
    serveHTTP m meth path = Outcome.redirect (dropLastChar path) := by
  have h1' : 1 < path.length := h1
  simp [serveHTTP, h1', h2]

/-- C9 witness: `POST /hello/joe/` on an empty route table redirects to
`/hello/joe`. -/
theorem claim_c9_redirect_witness :
    serveHTTP Mux.new "POST" "/hello/joe/" = Outcome.redirect "/hello/joe" :=
  claim_c9_redirect Mux.new "POST" "/hello/joe/" (by decide) (by decide)

/-- C10: every registration entry point panics on the empty pattern — the
wildcard-flag slice `patt[len(patt)-1:]` is out of range — modelled as
`none`; any non-empty pattern registers normally. -/
theorem claim_c10_empty_pattern (m : Mux) (meth : String) (hs : List Nat) :
    m.Add meth "" hs = none
    ∧ m.GET "" hs = none
    ∧ m.HEAD "" hs = none
    ∧ m.POST "" hs = none
    ∧ m.PUT "" hs = none
    ∧ m.DELETE "" hs = none
    ∧ m.OPTIONS "" hs = none
    ∧ m.PATCH "" hs = none
    ∧ ∀ patt, patt ≠ "" → m.add meth patt hs = some (m.addCore meth patt hs) := by
  refine ⟨?_, ?_, ?_, ?_, ?_, ?_, ?_, ?_, ?_⟩
  · simp [Mux.Add, Mux.add]
  · simp [Mux.GET, Mux.add]
  · simp [Mux.HEAD, Mux.add]
  · simp [Mux.POST, Mux.add]
  · simp [Mux.PUT, Mux.add]
  · simp [Mux.DELETE, Mux.add]
  · simp [Mux.OPTIONS, Mux.add]
  · simp [Mux.PATCH, Mux.add]
  · intro patt hp
    simp [Mux.add, hp]

/-- C10 witness: the empty pattern fails on a concrete `Mux` while the
non-empty pattern `/x` registers. -/
theorem claim_c10_empty_pattern_witness :
    Mux.new.Add "GET" "" [0] = none
    ∧ Mux.new.add "GET" "/x" [0] = some (Mux.new.addCore "GET" "/x" [0]) :=
  ⟨(claim_c10_empty_pattern Mux.new "GET" [0]).1,
   (claim_c10_empty_pattern Mux.new "GET" [0]).2.2.2.2.2.2.2.2 "/x" (by decide)⟩

end NinjaRouter
